import Mathlib

/-!
Verification of the clangd index-shard decoder (`clangd-idx-viewer.py`).

The decoder is shallowly embedded over byte lists (`List Nat`, each element a
byte value).  Reading from a Python `BytesIO` stream is modelled by functions
that take the remaining bytes and return the parsed value together with the
bytes left over; Python exceptions become the `PyErr` error type of an
`Except` result.  Definitions mirror the source functions one to one.
-/

namespace Clangd

/-- Python exceptions raised by the decoder.  `structError` models
`struct.error` (raised by `struct.unpack` on a buffer of the wrong size),
`indexError` models `IndexError` (raised by `b''[0]`), `eofError` models
`EOFError` (raised by the varint reader), and `valueError` carries the
message of a Python `ValueError`. -/
inductive PyErr where
  | eofError (msg : String)
  | indexError
  | structError
  | valueError (msg : String)
deriving DecidableEq, Repr

/-- Model of Python `f.read(n)`: returns up to `n` bytes (fewer at end of
stream, without error) and the remaining stream. -/
def pyRead (n : Nat) (s : List Nat) : List Nat × List Nat :=
  (s.take n, s.drop n)

/-- Model of Python `f.read(1)[0]`: one byte, or `IndexError` when the stream
is exhausted (indexing the empty `bytes`). -/
def pyReadByte : List Nat → Except PyErr (Nat × List Nat)
  | [] => .error .indexError
  | b :: rest => .ok (b, rest)

/-- Loop body of `VarintReader.read_varint`: `result |= (b & 0x7F) << shift`,
continue while the continuation bit `0x80` is set, `EOFError` at end of
stream. -/
def read_varint_aux : List Nat → Nat → Nat → Except PyErr (Nat × List Nat)
  | [], _, _ => .error (.eofError "Unexpected end of file reading varint")
  | b :: rest, result, shift =>
    let result := result ||| ((b &&& 0x7F) <<< shift)
    if b &&& 0x80 = 0 then .ok (result, rest)
    else read_varint_aux rest result (shift + 7)

/-- `VarintReader.read_varint`: unsigned little-endian base-128 integer. -/
def read_varint (s : List Nat) : Except PyErr (Nat × List Nat) :=
  read_varint_aux s 0 0

/-- Model of `struct.unpack('<I', bs)`: requires exactly 4 bytes, decodes a
little-endian 32-bit unsigned integer, otherwise `struct.error`. -/
def unpackLE32 : List Nat → Except PyErr Nat
  | [a, b, c, d] => .ok (a + 256 * b + 65536 * c + 16777216 * d)
  | _ => .error .structError

/-- Little-endian 32-bit encoding, used to build concrete inputs. -/
def le32enc (n : Nat) : List Nat :=
  [n % 256, n / 256 % 256, n / 65536 % 256, n / 16777216 % 256]

/-- The Unicode replacement character emitted by `errors='replace'`. -/
def replacementChar : Char := Char.ofNat 0xFFFD

/-- UTF-8 continuation byte test (`0x80–0xBF`). -/
def isContByte (b : Nat) : Bool := 0x80 ≤ b && b ≤ 0xBF

/-- Fuelled model of `bytes.decode('utf-8', errors='replace')`: well-formed
sequences (no overlongs, no surrogates, at most U+10FFFF) decode to their
scalar value; each maximal invalid subpart is replaced by U+FFFD.  The fuel
is at least the number of bytes, and every step consumes at least one byte,
so the fuel never runs out. -/
def decode_utf8_replace_aux : Nat → List Nat → List Char
  | 0, _ => []
  | _ + 1, [] => []
  | fuel + 1, b :: rest =>
    if b < 0x80 then Char.ofNat b :: decode_utf8_replace_aux fuel rest
    else if b < 0xC2 then replacementChar :: decode_utf8_replace_aux fuel rest
    else if b < 0xE0 then
      match rest with
      | [] => [replacementChar]
      | b1 :: rest1 =>
        if isContByte b1 then
          Char.ofNat ((b - 0xC0) * 64 + (b1 - 0x80)) ::
            decode_utf8_replace_aux fuel rest1
        else replacementChar :: decode_utf8_replace_aux fuel rest
    else if b < 0xF0 then
      match rest with
      | [] => [replacementChar]
      | b1 :: rest1 =>
        if (if b = 0xE0 then 0xA0 else 0x80) ≤ b1 ∧
            b1 ≤ (if b = 0xED then 0x9F else 0xBF) then
          match rest1 with
          | [] => [replacementChar]
          | b2 :: rest2 =>
            if isContByte b2 then
              Char.ofNat ((b - 0xE0) * 4096 + (b1 - 0x80) * 64 + (b2 - 0x80)) ::
                decode_utf8_replace_aux fuel rest2
            else replacementChar :: decode_utf8_replace_aux fuel rest1
        else replacementChar :: decode_utf8_replace_aux fuel rest
    else if b < 0xF5 then
      match rest with
      | [] => [replacementChar]
      | b1 :: rest1 =>
        if (if b = 0xF0 then 0x90 else 0x80) ≤ b1 ∧
            b1 ≤ (if b = 0xF4 then 0x8F else 0xBF) then
          match rest1 with
          | [] => [replacementChar]
          | b2 :: rest2 =>
            if isContByte b2 then
              match rest2 with
              | [] => [replacementChar]
              | b3 :: rest3 =>
                if isContByte b3 then
                  Char.ofNat ((b - 0xF0) * 262144 + (b1 - 0x80) * 4096 +
                      (b2 - 0x80) * 64 + (b3 - 0x80)) ::
                    decode_utf8_replace_aux fuel rest3
                else replacementChar :: decode_utf8_replace_aux fuel rest2
            else replacementChar :: decode_utf8_replace_aux fuel rest1
        else replacementChar :: decode_utf8_replace_aux fuel rest
    else replacementChar :: decode_utf8_replace_aux fuel rest

/-- Model of `bytes.decode('utf-8', errors='replace')`. -/
def decode_utf8_replace (bs : List Nat) : String :=
  String.mk (decode_utf8_replace_aux (bs.length + 1) bs)

/-- Loop of `StringTable._parse_strings`: `current` is the run of bytes
accumulated since the last NUL; a NUL byte flushes it (decoded), and a
nonempty run left at the end of the data is flushed as well. -/
def parse_strings_go (current : List Nat) : List Nat → List String
  | [] => if current = [] then [] else [decode_utf8_replace current]
  | b :: rest =>
    if b = 0 then decode_utf8_replace current :: parse_strings_go [] rest
    else parse_strings_go (current ++ [b]) rest

/-- `StringTable._parse_strings`: split the blob on NUL bytes, decoding each
piece as UTF-8 with replacement. -/
def parse_strings (data : List Nat) : List String :=
  parse_strings_go [] data

/-- The string table: an ordered pool of strings. -/
structure StringTable where
  strings : List String
deriving DecidableEq, Repr

/-- `StringTable.get`: the string at `index`, or `""` when out of range. -/
def StringTable.get (st : StringTable) (index : Nat) : String :=
  if h : index < st.strings.length then st.strings.get ⟨index, h⟩ else ""

/-- `StringTable.__init__`.  The first 4 bytes declare the uncompressed size
`S`; if `S = 0` the remainder is the raw blob, otherwise the remainder is
zlib-compressed and must decompress to exactly `S` bytes.  `zlib.decompress`
is external library code, modelled by the oracle `decompress` (failure
modelled as `Except.error` with the message of the `zlib.error`); the
size-mismatch check and error wrapping are the source's own code. -/
def string_table_init (decompress : List Nat → Except String (List Nat))
    (data : List Nat) : Except PyErr StringTable :=
  match unpackLE32 (data.take 4) with
  | .error e => .error e
  | .ok uncompressed_size =>
    if uncompressed_size = 0 then
      .ok ⟨parse_strings (data.drop 4)⟩
    else
      match decompress (data.drop 4) with
      | .error e => .error (.valueError ("Failed to decompress string table: " ++ e))
      | .ok decompressed =>
        if decompressed.length ≠ uncompressed_size then
          .error (.valueError ("Decompressed size mismatch: expected " ++
            toString uncompressed_size ++ ", got " ++ toString decompressed.length))
        else
          .ok ⟨parse_strings decompressed⟩

/-- `SymbolLocation` record. -/
structure SymbolLocation where
  file_uri : String
  start_line : Nat
  start_column : Nat
  end_line : Nat
  end_column : Nat
deriving DecidableEq, Repr

/-- `IncludeHeaderWithReferences` record; `supported_directives` is the raw
`IncludeDirective` value. -/
structure IncludeHeaderWithReferences where
  header : String
  references : Nat
  supported_directives : Nat
deriving DecidableEq, Repr

/-- `IncludeDirective.Invalid`. -/
def includeDirectiveInvalid : Nat := 0

/-- `IncludeDirective.Include`. -/
def includeDirectiveInclude : Nat := 1

/-- `IncludeDirective.Import`. -/
def includeDirectiveImport : Nat := 2

/-- `Reference` record.  `kind` is the raw `RefKind` byte (the enum admits
every value through `_missing_`); `container` is `none` for format 12. -/
structure Reference where
  kind : Nat
  location : SymbolLocation
  container : Option (List Nat)
deriving DecidableEq, Repr

/-- `Relation` record; `predicate` is the raw `RelationKind` byte. -/
structure Relation where
  subject : List Nat
  predicate : Nat
  object : List Nat
deriving DecidableEq, Repr

/-- `Symbol` record; enum-valued fields keep the raw byte (the Python enums
accept every value through `_missing_`). -/
structure Symbol where
  id : List Nat
  kind : Nat
  language : Nat
  name : String
  scope : String
  template_specialization_args : String
  definition : Option SymbolLocation
  canonical_declaration : Option SymbolLocation
  references : Nat
  flags : Nat
  signature : String
  completion_snippet_suffix : String
  documentation : String
  return_type : String
  type : String
  include_headers : List IncludeHeaderWithReferences
deriving DecidableEq, Repr

/-- `IncludeGraphNode` record. -/
structure IncludeGraphNode where
  flags : Nat
  uri : String
  digest : List Nat
  direct_includes : List String
deriving DecidableEq, Repr

/-- The three version strategies of `IdxFileParser._initialize`. -/
inductive Strategy where
  | v12
  | v13to17
  | v18plus
deriving DecidableEq, Repr

/-- `_read_location` as defined (identically) on `Format12Strategy`,
`Format13To17Strategy` and `Format18PlusStrategy`: five varints, the file
string always resolved through the table, the location always present. -/
def format_read_location (tbl : StringTable) (s : List Nat) :
    Except PyErr (SymbolLocation × List Nat) :=
  match read_varint s with
  | .error e => .error e
  | .ok (file_uri_idx, s1) =>
    match read_varint s1 with
    | .error e => .error e
    | .ok (start_line, s2) =>
      match read_varint s2 with
      | .error e => .error e
      | .ok (start_column, s3) =>
        match read_varint s3 with
        | .error e => .error e
        | .ok (end_line, s4) =>
          match read_varint s4 with
          | .error e => .error e
          | .ok (end_column, s5) =>
            .ok (⟨tbl.get file_uri_idx, start_line, start_column,
                  end_line, end_column⟩, s5)

/-- `IdxFileParser._read_location` (used for symbol definition and canonical
declaration): when the file-index varint is 0 the four trailing varints are
still read and discarded and the location is reported absent. -/
def idx_read_location (tbl : StringTable) (s : List Nat) :
    Except PyErr (Option SymbolLocation × List Nat) :=
  match read_varint s with
  | .error e => .error e
  | .ok (file_uri_idx, s1) =>
    if file_uri_idx = 0 then
      match read_varint s1 with
      | .error e => .error e
      | .ok (_, s2) =>
        match read_varint s2 with
        | .error e => .error e
        | .ok (_, s3) =>
          match read_varint s3 with
          | .error e => .error e
          | .ok (_, s4) =>
            match read_varint s4 with
            | .error e => .error e
            | .ok (_, s5) => .ok (none, s5)
    else
      match read_varint s1 with
      | .error e => .error e
      | .ok (start_line, s2) =>
        match read_varint s2 with
        | .error e => .error e
        | .ok (start_column, s3) =>
          match read_varint s3 with
          | .error e => .error e
          | .ok (end_line, s4) =>
            match read_varint s4 with
            | .error e => .error e
            | .ok (end_column, s5) =>
              .ok (some ⟨tbl.get file_uri_idx, start_line, start_column,
                    end_line, end_column⟩, s5)

/-- `Format12Strategy.parse_ref`: kind byte + location, no container. -/
def parse_ref_v12 (tbl : StringTable) (s : List Nat) :
    Except PyErr (Reference × List Nat) :=
  match pyReadByte s with
  | .error e => .error e
  | .ok (kind, s1) =>
    match format_read_location tbl s1 with
    | .error e => .error e
    | .ok (location, s2) => .ok (⟨kind, location, none⟩, s2)

/-- `Format13To17Strategy.parse_ref`: kind byte + location + 8-byte
container (a short read at end of stream is kept as-is, without error). -/
def parse_ref_v13to17 (tbl : StringTable) (s : List Nat) :
    Except PyErr (Reference × List Nat) :=
  match pyReadByte s with
  | .error e => .error e
  | .ok (kind, s1) =>
    match format_read_location tbl s1 with
    | .error e => .error e
    | .ok (location, s2) =>
      let (container, s3) := pyRead 8 s2
      .ok (⟨kind, location, some container⟩, s3)

/-- `Format18PlusStrategy.parse_ref`: identical body to the 13–17 version. -/
def parse_ref_v18plus (tbl : StringTable) (s : List Nat) :
    Except PyErr (Reference × List Nat) :=
  match pyReadByte s with
  | .error e => .error e
  | .ok (kind, s1) =>
    match format_read_location tbl s1 with
    | .error e => .error e
    | .ok (location, s2) =>
      let (container, s3) := pyRead 8 s2
      .ok (⟨kind, location, some container⟩, s3)

/-- `Format12Strategy.parse_include_header`: header-index varint, reference
count varint, directive fixed to `Include`. -/
def parse_include_header_v12 (tbl : StringTable) (s : List Nat) :
    Except PyErr (IncludeHeaderWithReferences × List Nat) :=
  match read_varint s with
  | .error e => .error e
  | .ok (header_idx, s1) =>
    match read_varint s1 with
    | .error e => .error e
    | .ok (references, s2) =>
      .ok (⟨tbl.get header_idx, references, includeDirectiveInclude⟩, s2)

/-- `Format13To17Strategy.parse_include_header`: identical body to the v12
version. -/
def parse_include_header_v13to17 (tbl : StringTable) (s : List Nat) :
    Except PyErr (IncludeHeaderWithReferences × List Nat) :=
  match read_varint s with
  | .error e => .error e
  | .ok (header_idx, s1) =>
    match read_varint s1 with
    | .error e => .error e
    | .ok (references, s2) =>
      .ok (⟨tbl.get header_idx, references, includeDirectiveInclude⟩, s2)

/-- `Format18PlusStrategy.parse_include_header`: header-index varint, one
packed varint with `references = packed >> 2` and
`supported_directives = packed & 0x3`. -/
def parse_include_header_v18plus (tbl : StringTable) (s : List Nat) :
    Except PyErr (IncludeHeaderWithReferences × List Nat) :=
  match read_varint s with
  | .error e => .error e
  | .ok (header_idx, s1) =>
    match read_varint s1 with
    | .error e => .error e
    | .ok (packed, s2) =>
      .ok (⟨tbl.get header_idx, packed >>> 2, packed &&& 0x3⟩, s2)

/-- Dispatch of `self.strategy.parse_ref`. -/
def strategy_parse_ref : Strategy → StringTable → List Nat →
    Except PyErr (Reference × List Nat)
  | .v12 => parse_ref_v12
  | .v13to17 => parse_ref_v13to17
  | .v18plus => parse_ref_v18plus

/-- Dispatch of `self.strategy.parse_include_header`. -/
def strategy_parse_include_header : Strategy → StringTable → List Nat →
    Except PyErr (IncludeHeaderWithReferences × List Nat)
  | .v12 => parse_include_header_v12
  | .v13to17 => parse_include_header_v13to17
  | .v18plus => parse_include_header_v18plus

/-- The exception classes caught by the per-record loops:
`except (EOFError, struct.error)`. -/
def caughtRecordError : PyErr → Bool
  | .eofError _ => true
  | .structError => true
  | _ => false

/-- Reading `count` include headers inside `_parse_symbol`. -/
def parse_include_headers (stg : Strategy) (tbl : StringTable) :
    Nat → List Nat → Except PyErr (List IncludeHeaderWithReferences × List Nat)
  | 0, s => .ok ([], s)
  | n + 1, s =>
    match strategy_parse_include_header stg tbl s with
    | .error e => .error e
    | .ok (inc, s1) =>
      match parse_include_headers stg tbl n s1 with
      | .error e => .error e
      | .ok (incs, s2) => .ok (inc :: incs, s2)

/-- `IdxFileParser._parse_symbol`: one symbol record, field by field. -/
def parse_symbol (stg : Strategy) (tbl : StringTable) (s : List Nat) :
    Except PyErr (Symbol × List Nat) :=
  let (symbol_id, s1) := pyRead 8 s
  match pyReadByte s1 with
  | .error e => .error e
  | .ok (kind, s2) =>
  match pyReadByte s2 with
  | .error e => .error e
  | .ok (language, s3) =>
  match read_varint s3 with
  | .error e => .error e
  | .ok (name_idx, s4) =>
  match read_varint s4 with
  | .error e => .error e
  | .ok (scope_idx, s5) =>
  match read_varint s5 with
  | .error e => .error e
  | .ok (template_args_idx, s6) =>
  match idx_read_location tbl s6 with
  | .error e => .error e
  | .ok (definition, s7) =>
  match idx_read_location tbl s7 with
  | .error e => .error e
  | .ok (canonical_declaration, s8) =>
  match read_varint s8 with
  | .error e => .error e
  | .ok (references, s9) =>
  match pyReadByte s9 with
  | .error e => .error e
  | .ok (flags, s10) =>
  match read_varint s10 with
  | .error e => .error e
  | .ok (signature_idx, s11) =>
  match read_varint s11 with
  | .error e => .error e
  | .ok (snippet_idx, s12) =>
  match read_varint s12 with
  | .error e => .error e
  | .ok (documentation_idx, s13) =>
  match read_varint s13 with
  | .error e => .error e
  | .ok (return_type_idx, s14) =>
  match read_varint s14 with
  | .error e => .error e
  | .ok (type_idx, s15) =>
  match read_varint s15 with
  | .error e => .error e
  | .ok (include_count, s16) =>
  match parse_include_headers stg tbl include_count s16 with
  | .error e => .error e
  | .ok (include_headers, s17) =>
    .ok (⟨symbol_id, kind, language, tbl.get name_idx, tbl.get scope_idx,
          tbl.get template_args_idx, definition, canonical_declaration,
          references, flags, tbl.get signature_idx, tbl.get snippet_idx,
          tbl.get documentation_idx, tbl.get return_type_idx,
          tbl.get type_idx, include_headers⟩, s17)

/-- Loop of `IdxFileParser.parse_symbols`: `while f.tell() < len(data)`, one
record per iteration, stopping cleanly on a caught `EOFError`/`struct.error`
and propagating any other exception.  The fuel is at least the number of
remaining bytes plus one; a successful record always consumes at least one
byte, so the zero-fuel branch is never reached from `parse_symbols_data`. -/
def parse_symbols_loop (stg : Strategy) (tbl : StringTable) :
    Nat → List Nat → Except PyErr (List Symbol)
  | 0, _ => .ok []
  | _ + 1, [] => .ok []
  | fuel + 1, data =>
    match parse_symbol stg tbl data with
    | .error e => if caughtRecordError e then .ok [] else .error e
    | .ok (sym, rest) =>
      match parse_symbols_loop stg tbl fuel rest with
      | .error e => .error e
      | .ok syms => .ok (sym :: syms)

/-- `IdxFileParser.parse_symbols` on the raw chunk bytes. -/
def parse_symbols_data (stg : Strategy) (tbl : StringTable) (data : List Nat) :
    Except PyErr (List Symbol) :=
  parse_symbols_loop stg tbl (data.length + 1) data

/-- Reading `count` references of one group inside `parse_refs`. -/
def parse_refs_n (stg : Strategy) (tbl : StringTable) :
    Nat → List Nat → Except PyErr (List Reference × List Nat)
  | 0, s => .ok ([], s)
  | n + 1, s =>
    match strategy_parse_ref stg tbl s with
    | .error e => .error e
    | .ok (r, s1) =>
      match parse_refs_n stg tbl n s1 with
      | .error e => .error e
      | .ok (rs, s2) => .ok (r :: rs, s2)

/-- One group of `parse_refs`: 8-byte symbol id, varint count, that many
references. -/
def parse_ref_group (stg : Strategy) (tbl : StringTable) (s : List Nat) :
    Except PyErr ((List Nat × List Reference) × List Nat) :=
  let (symbol_id, s1) := pyRead 8 s
  match read_varint s1 with
  | .error e => .error e
  | .ok (ref_count, s2) =>
    match parse_refs_n stg tbl ref_count s2 with
    | .error e => .error e
    | .ok (refs, s3) => .ok ((symbol_id, refs), s3)

/-- Loop of `IdxFileParser.parse_refs`; the association list records the
insertions into `refs_by_symbol` in order. -/
def parse_refs_loop (stg : Strategy) (tbl : StringTable) :
    Nat → List Nat → Except PyErr (List (List Nat × List Reference))
  | 0, _ => .ok []
  | _ + 1, [] => .ok []
  | fuel + 1, data =>
    match parse_ref_group stg tbl data with
    | .error e => if caughtRecordError e then .ok [] else .error e
    | .ok (g, rest) =>
      match parse_refs_loop stg tbl fuel rest with
      | .error e => .error e
      | .ok gs => .ok (g :: gs)

/-- `IdxFileParser.parse_refs` on the raw chunk bytes. -/
def parse_refs_data (stg : Strategy) (tbl : StringTable) (data : List Nat) :
    Except PyErr (List (List Nat × List Reference)) :=
  parse_refs_loop stg tbl (data.length + 1) data

/-- One record of `parse_relations`: 8-byte subject, 1-byte predicate
(`IndexError` when the stream is exhausted), 8-byte object (a short read at
end of stream is kept as-is, without error). -/
def parse_relation_one (s : List Nat) : Except PyErr (Relation × List Nat) :=
  let (subject, s1) := pyRead 8 s
  match pyReadByte s1 with
  | .error e => .error e
  | .ok (predicate, s2) =>
    let (object, s3) := pyRead 8 s2
    .ok (⟨subject, predicate, object⟩, s3)

/-- Loop of `IdxFileParser.parse_relations`. -/
def parse_relations_loop : Nat → List Nat → Except PyErr (List Relation)
  | 0, _ => .ok []
  | _ + 1, [] => .ok []
  | fuel + 1, data =>
    match parse_relation_one data with
    | .error e => if caughtRecordError e then .ok [] else .error e
    | .ok (rel, rest) =>
      match parse_relations_loop fuel rest with
      | .error e => .error e
      | .ok rels => .ok (rel :: rels)

/-- `IdxFileParser.parse_relations` on the raw chunk bytes. -/
def parse_relations_data (data : List Nat) : Except PyErr (List Relation) :=
  parse_relations_loop (data.length + 1) data

/-- Reading `count` string indices, resolving each through the table (used
by `parse_sources` for direct includes and by `parse_command` for the
arguments). -/
def read_string_idx_n (tbl : StringTable) :
    Nat → List Nat → Except PyErr (List String × List Nat)
  | 0, s => .ok ([], s)
  | n + 1, s =>
    match read_varint s with
    | .error e => .error e
    | .ok (idx, s1) =>
      match read_string_idx_n tbl n s1 with
      | .error e => .error e
      | .ok (xs, s2) => .ok (tbl.get idx :: xs, s2)

/-- One node of `parse_sources`: 1-byte flags, varint URI index, 8-byte
digest, varint include count, that many varint string indices. -/
def parse_source_one (tbl : StringTable) (s : List Nat) :
    Except PyErr (IncludeGraphNode × List Nat) :=
  match pyReadByte s with
  | .error e => .error e
  | .ok (flags, s1) =>
    match read_varint s1 with
    | .error e => .error e
    | .ok (uri_idx, s2) =>
      let (digest, s3) := pyRead 8 s2
      match read_varint s3 with
      | .error e => .error e
      | .ok (include_count, s4) =>
        match read_string_idx_n tbl include_count s4 with
        | .error e => .error e
        | .ok (includes, s5) =>
          .ok (⟨flags, tbl.get uri_idx, digest, includes⟩, s5)

/-- Loop of `IdxFileParser.parse_sources`. -/
def parse_sources_loop (tbl : StringTable) :
    Nat → List Nat → Except PyErr (List IncludeGraphNode)
  | 0, _ => .ok []
  | _ + 1, [] => .ok []
  | fuel + 1, data =>
    match parse_source_one tbl data with
    | .error e => if caughtRecordError e then .ok [] else .error e
    | .ok (node, rest) =>
      match parse_sources_loop tbl fuel rest with
      | .error e => .error e
      | .ok nodes => .ok (node :: nodes)

/-- `IdxFileParser.parse_sources` on the raw chunk bytes. -/
def parse_sources_data (tbl : StringTable) (data : List Nat) :
    Except PyErr (List IncludeGraphNode) :=
  parse_sources_loop tbl (data.length + 1) data

/-- `IdxFileParser.parse_command` on the raw chunk bytes: varint directory
index, varint argument count, that many varint string indices.  No
truncation recovery here: an `EOFError` propagates. -/
def parse_command_data (tbl : StringTable) (s : List Nat) :
    Except PyErr (String × List String) :=
  match read_varint s with
  | .error e => .error e
  | .ok (directory_idx, s1) =>
    match read_varint s1 with
    | .error e => .error e
    | .ok (cmd_count, s2) =>
      match read_string_idx_n tbl cmd_count s2 with
      | .error e => .error e
      | .ok (cmd_args, _) => .ok (tbl.get directory_idx, cmd_args)

/-- The chunk map built by `RIFFParser._parse` (a Python `dict` keyed by the
decoded chunk id); later insertions under the same key overwrite earlier
ones. -/
def Chunks : Type := String → Option (List Nat)

/-- The empty chunk map. -/
def emptyChunks : Chunks := fun _ => none

/-- `self.chunks[key] = data`. -/
def updateChunks (m : Chunks) (key : String) (data : List Nat) : Chunks :=
  fun k => if k = key then some data else m k

/-- Model of `bytes.decode('ascii', errors='ignore')`: bytes ≥ 0x80 are
dropped. -/
def decode_ascii_ignore (bs : List Nat) : String :=
  String.mk ((bs.filter (· < 128)).map Char.ofNat)

/-- Python truthiness of `self.riff.get_chunk(id)`: falsy when the chunk is
missing or its payload is empty (`if not data`). -/
def pyFalsy : Option (List Nat) → Bool
  | none => true
  | some d => d.isEmpty

/-- The chunk payload as used after a truthiness check. -/
def chunkData (chunks : Chunks) (id : String) : List Nat :=
  match chunks id with
  | none => []
  | some d => d

/-- Chunk loop of `RIFFParser._parse` (`while f.tell() < file_size + 8`):
read a 4-byte id (stop on an empty read), a little-endian 32-bit length
(`struct.error` propagates if fewer than 4 bytes remain), that many payload
bytes, then skip one padding byte when the length is odd.  `pos` mirrors
`f.tell()` and advances by exactly the number of bytes consumed.  The fuel
is at least the number of remaining bytes plus one; every iteration consumes
at least one byte, so the zero-fuel branch is never reached from
`riff_parse`. -/
def riff_chunk_loop (file_size : Nat) :
    Nat → Nat → List Nat → Chunks → Except PyErr Chunks
  | 0, _, _, m => .ok m
  | fuel + 1, pos, rem, m =>
    if file_size + 8 ≤ pos then .ok m
    else
      let chunk_id := rem.take 4
      if chunk_id = [] then .ok m
      else
        match unpackLE32 ((rem.drop 4).take 4) with
        | .error e => .error e
        | .ok chunk_size =>
          let rem1 := (rem.drop 4).drop 4
          let chunk_bytes := rem1.take chunk_size
          let rem2 := rem1.drop chunk_size
          let rem3 := if chunk_size % 2 = 1 then rem2.drop 1 else rem2
          riff_chunk_loop file_size fuel (pos + (rem.length - rem3.length))
            rem3 (updateChunks m (decode_ascii_ignore chunk_id) chunk_bytes)

/-- `RIFFParser._parse`: fixed magic `b'RIFF'`, little-endian 32-bit total
size, fixed type tag `b'CdIx'`, then the chunk loop starting at offset 12. -/
def riff_parse (file : List Nat) : Except PyErr Chunks :=
  if file.take 4 ≠ [82, 73, 70, 70] then
    .error (.valueError "Not a RIFF file")
  else
    match unpackLE32 ((file.drop 4).take 4) with
    | .error e => .error e
    | .ok file_size =>
      if (file.drop 8).take 4 ≠ [67, 100, 73, 120] then
        .error (.valueError "Not a clangd index file")
      else
        riff_chunk_loop file_size ((file.drop 12).length + 1) 12
          (file.drop 12) emptyChunks

/-- `RIFFParser.get_chunk` after a successful `_parse` of `file`. -/
def riff_get_chunk (file : List Nat) (id : String) :
    Except PyErr (Option (List Nat)) :=
  match riff_parse file with
  | .error e => .error e
  | .ok m => .ok (m id)

/-- `IdxFileParser._initialize` strategy selection: version 12, 13–17 or
18–20, otherwise `ValueError` carrying the raw version number. -/
def select_strategy (format_version : Nat) : Except PyErr Strategy :=
  if format_version = 12 then .ok .v12
  else if 13 ≤ format_version ∧ format_version ≤ 17 then .ok .v13to17
  else if 18 ≤ format_version ∧ format_version ≤ 20 then .ok .v18plus
  else .error (.valueError ("Unsupported format version: " ++
    toString format_version))

/-- `IdxFileParser._initialize`: mandatory `meta` chunk (version from its
first 4 bytes, strategy selected from the version), then mandatory `stri`
chunk (string table).  A missing or empty mandatory chunk is a fatal error
naming it. -/
def idx_initialize (decompress : List Nat → Except String (List Nat))
    (chunks : Chunks) : Except PyErr (Nat × Strategy × StringTable) :=
  if pyFalsy (chunks "meta") then
    .error (.valueError "Missing required meta chunk")
  else
    match unpackLE32 ((chunkData chunks "meta").take 4) with
    | .error e => .error e
    | .ok format_version =>
      match select_strategy format_version with
      | .error e => .error e
      | .ok strategy =>
        if pyFalsy (chunks "stri") then
          .error (.valueError "Missing required stri chunk")
        else
          match string_table_init decompress (chunkData chunks "stri") with
          | .error e => .error e
          | .ok string_table => .ok (format_version, strategy, string_table)

/-- `IdxFileParser.parse_symbols`: absent or empty `symb` chunk decodes to
the empty list. -/
def parse_symbols (chunks : Chunks) (stg : Strategy) (tbl : StringTable) :
    Except PyErr (List Symbol) :=
  if pyFalsy (chunks "symb") then .ok []
  else parse_symbols_data stg tbl (chunkData chunks "symb")

/-- `IdxFileParser.parse_refs`: absent or empty `refs` chunk decodes to the
empty map. -/
def parse_refs (chunks : Chunks) (stg : Strategy) (tbl : StringTable) :
    Except PyErr (List (List Nat × List Reference)) :=
  if pyFalsy (chunks "refs") then .ok []
  else parse_refs_data stg tbl (chunkData chunks "refs")

/-- `IdxFileParser.parse_relations`: absent or empty `rela` chunk decodes to
the empty list. -/
def parse_relations (chunks : Chunks) : Except PyErr (List Relation) :=
  if pyFalsy (chunks "rela") then .ok []
  else parse_relations_data (chunkData chunks "rela")

/-- `IdxFileParser.parse_sources`: absent or empty `srcs` chunk decodes to
the empty list. -/
def parse_sources (chunks : Chunks) (tbl : StringTable) :
    Except PyErr (List IncludeGraphNode) :=
  if pyFalsy (chunks "srcs") then .ok []
  else parse_sources_data tbl (chunkData chunks "srcs")

/-- `IdxFileParser.parse_command`: absent or empty `cmdl` chunk yields no
command. -/
def parse_command (chunks : Chunks) (tbl : StringTable) :
    Except PyErr (Option (String × List String)) :=
  if pyFalsy (chunks "cmdl") then .ok none
  else
    match parse_command_data tbl (chunkData chunks "cmdl") with
    | .error e => .error e
    | .ok cmd => .ok (some cmd)

/-- RIFF chunk encoder used to build concrete container inputs: 4-byte id,
little-endian 32-bit length, payload, one padding byte when the length is
odd. -/
def encodeChunk (id : List Nat) (payload : List Nat) : List Nat :=
  id ++ le32enc payload.length ++ payload ++
    (if payload.length % 2 = 1 then [0] else [])

/-- A container file with exactly two chunks, used to state the
duplicate-id claim. -/
def riffFile2 (id p1 p2 : List Nat) : List Nat :=
  [82, 73, 70, 70] ++
    le32enc (4 + (encodeChunk id p1).length + (encodeChunk id p2).length) ++
    [67, 100, 73, 120] ++ encodeChunk id p1 ++ encodeChunk id p2

/-! Helper lemmas. -/

/-- A successful varint read is unaffected by bytes appended after the
input: the same value is produced and the appended bytes stay in the
remainder. -/
theorem read_varint_aux_append :
    ∀ (xs : List Nat) (r sh : Nat) {v : Nat} {rem : List Nat} (ys : List Nat),
    read_varint_aux xs r sh = .ok (v, rem) →
    read_varint_aux (xs ++ ys) r sh = .ok (v, rem ++ ys) := by
  intro xs
  induction xs with
  | nil => intro r sh v rem ys h; simp [read_varint_aux] at h
  | cons b rest ih =>
    intro r sh v rem ys h
    simp only [read_varint_aux, List.cons_append] at h ⊢
    by_cases hb : b &&& 128 = 0
    · simp only [hb, if_pos, if_true] at h ⊢
      simp only [Except.ok.injEq, Prod.mk.injEq] at h ⊢
      exact ⟨h.1, by rw [h.2]; rfl⟩
    · simp only [hb, if_neg, if_false] at h ⊢
      exact ih _ _ _ h

/-- `read_varint` version of `read_varint_aux_append`. -/
theorem read_varint_append {xs : List Nat} {v : Nat} {rem : List Nat}
    (ys : List Nat) (h : read_varint xs = .ok (v, rem)) :
    read_varint (xs ++ ys) = .ok (v, rem ++ ys) :=
  read_varint_aux_append xs 0 0 ys h

/-- A successful strategy location read is unaffected by appended bytes. -/
theorem format_read_location_append (tbl : StringTable) {xs : List Nat}
    {loc : SymbolLocation} {rem : List Nat} (ys : List Nat)
    (h : format_read_location tbl xs = .ok (loc, rem)) :
    format_read_location tbl (xs ++ ys) = .ok (loc, rem ++ ys) := by
  unfold format_read_location at h ⊢
  split at h
  · exact Except.noConfusion h
  next v1 s1 heq1 =>
    split at h
    · exact Except.noConfusion h
    next v2 s2 heq2 =>
      split at h
      · exact Except.noConfusion h
      next v3 s3 heq3 =>
        split at h
        · exact Except.noConfusion h
        next v4 s4 heq4 =>
          split at h
          · exact Except.noConfusion h
          next v5 s5 heq5 =>
            simp only [Except.ok.injEq, Prod.mk.injEq] at h
            obtain ⟨hl, hr⟩ := h
            subst hl
            subst hr
            simp only [read_varint_append ys heq1]
            simp only [read_varint_append ys heq2]
            simp only [read_varint_append ys heq3]
            simp only [read_varint_append ys heq4]
            simp only [read_varint_append ys heq5]

/-- On NUL-free data the accumulator loop flushes once at the end (or not at
all when everything is empty). -/
theorem parse_strings_go_no_nul :
    ∀ (tl cur : List Nat), (0 : Nat) ∉ tl →
    parse_strings_go cur tl =
      if cur ++ tl = [] then [] else [decode_utf8_replace (cur ++ tl)] := by
  intro tl
  induction tl with
  | nil => intro cur _; simp [parse_strings_go]
  | cons b tl ih =>
    intro cur h
    have hb : ¬(b = 0) := fun hb0 => h (hb0 ▸ List.mem_cons_self b tl)
    have h' : (0 : Nat) ∉ tl := fun hm => h (List.mem_cons_of_mem _ hm)
    simp only [parse_strings_go, hb, if_false, ite_false]
    rw [ih (cur ++ [b]) h']
    have : cur ++ [b] ++ tl = cur ++ b :: tl := by simp
    rw [this]

/-- A NUL-free segment followed by a NUL flushes exactly that segment. -/
theorem parse_strings_go_flush :
    ∀ (s : List Nat) (rest cur : List Nat), (0 : Nat) ∉ s →
    parse_strings_go cur (s ++ 0 :: rest) =
      decode_utf8_replace (cur ++ s) :: parse_strings_go [] rest := by
  intro s
  induction s with
  | nil => intro rest cur _; simp [parse_strings_go]
  | cons b s ih =>
    intro rest cur h
    have hb : ¬(b = 0) := fun hb0 => h (hb0 ▸ List.mem_cons_self b s)
    have h' : (0 : Nat) ∉ s := fun hm => h (List.mem_cons_of_mem _ hm)
    simp only [List.cons_append, List.append_eq, parse_strings_go, hb,
      if_false, ite_false]
    rw [ih rest (cur ++ [b]) h']
    have : cur ++ [b] ++ s = cur ++ b :: s := by simp
    rw [this]

/-- Blob builder for the string-table claims: each segment followed by a
NUL terminator. -/
def buildBlob (segs : List (List Nat)) : List Nat :=
  segs.foldr (fun s acc => s ++ 0 :: acc) []

/-- Parsing a blob of NUL-terminated NUL-free segments recovers exactly the
decoded segments, in order. -/
theorem parse_strings_build (segs : List (List Nat))
    (h : ∀ s ∈ segs, (0 : Nat) ∉ s) :
    parse_strings (buildBlob segs) = segs.map decode_utf8_replace := by
  induction segs with
  | nil => simp [buildBlob, parse_strings, parse_strings_go]
  | cons s segs ih =>
    have hs : (0 : Nat) ∉ s := h s (List.mem_cons_self s segs)
    have h' : ∀ t ∈ segs, (0 : Nat) ∉ t := fun t ht => h t (List.mem_cons_of_mem _ ht)
    unfold parse_strings at ih ⊢
    show parse_strings_go [] (s ++ 0 :: buildBlob segs) = _
    rw [parse_strings_go_flush s (buildBlob segs) [] hs]
    rw [ih h']
    simp

/-- Little-endian 32-bit round trip. -/
theorem unpackLE32_le32enc (n : Nat) (h : n < 4294967296) :
    unpackLE32 (le32enc n) = .ok n := by
  simp only [le32enc, unpackLE32, Except.ok.injEq]
  omega

/-- The encoding always has 4 bytes. -/
theorem le32enc_length (n : Nat) : (le32enc n).length = 4 := rfl

/-- The bytes after the last NUL form one final flushed segment. -/
theorem parse_strings_go_last_flush :
    ∀ (pre cur : List Nat) {tl : List Nat}, (0 : Nat) ∉ tl → tl ≠ [] →
    parse_strings_go cur (pre ++ 0 :: tl) =
      parse_strings_go cur (pre ++ [0]) ++ [decode_utf8_replace tl] := by
  intro pre
  induction pre with
  | nil =>
    intro cur tl h0 hne
    simp only [List.nil_append, parse_strings_go, if_pos rfl, ite_true]
    rw [parse_strings_go_no_nul tl [] h0]
    simp [hne]
  | cons a pre ih =>
    intro cur tl h0 hne
    by_cases ha : a = 0
    · subst ha
      simp only [List.cons_append, List.append_eq, parse_strings_go,
        if_pos rfl, ite_true]
      rw [ih [] h0 hne]
    · simp only [List.cons_append, List.append_eq, parse_strings_go, ha,
        if_false, ite_false]
      exact ih (cur ++ [a]) h0 hne

/-- Appending the NUL terminator to a blob whose last byte is not NUL does
not change the parse: the terminator creates no extra empty string. -/
theorem parse_strings_go_term :
    ∀ (bs : List Nat) (b : Nat) (cur : List Nat), b ≠ 0 →
    parse_strings_go cur (bs ++ [b, 0]) = parse_strings_go cur (bs ++ [b]) := by
  intro bs
  induction bs with
  | nil =>
    intro b cur hb
    simp [parse_strings_go, hb]
  | cons a bs ih =>
    intro b cur hb
    by_cases ha : a = 0
    · subst ha
      simp only [List.cons_append, List.append_eq, parse_strings_go,
        if_pos rfl, ite_true]
      rw [ih b [] hb]
    · simp only [List.cons_append, List.append_eq, parse_strings_go, ha,
        if_false, ite_false]
      exact ih b (cur ++ [a]) hb

/-- The chunk loop returns the accumulated map once the cursor reaches the
declared end. -/
theorem riff_chunk_loop_stop (file_size fuel pos : Nat) (rem : List Nat)
    (m : Chunks) (hpos : file_size + 8 ≤ pos) :
    riff_chunk_loop file_size fuel pos rem m = .ok m := by
  cases fuel with
  | zero => rfl
  | succ fuel =>
    unfold riff_chunk_loop
    rw [if_pos hpos]

/-- One iteration of the RIFF chunk loop on a well-formed encoded chunk
followed by more bytes: the chunk is stored under its decoded id and the
cursor advances by exactly the encoded length. -/
theorem riff_chunk_loop_step (file_size fuel pos : Nat) (rem : List Nat)
    (m : Chunks) (id p : List Nat) (hid : id.length = 4)
    (hp : p.length < 4294967296) (hpos : pos < file_size + 8) :
    riff_chunk_loop file_size (fuel + 1) pos (encodeChunk id p ++ rem) m =
      riff_chunk_loop file_size fuel (pos + (encodeChunk id p).length) rem
        (updateChunks m (decode_ascii_ignore id) p) := by
  have hidne : id ≠ [] := by
    intro h
    rw [h] at hid
    exact absurd hid (by decide)
  by_cases hodd : p.length % 2 = 1
  · have hassoc : encodeChunk id p ++ rem =
        id ++ (le32enc p.length ++ (p ++ (0 :: rem))) := by
      simp [encodeChunk, hodd, List.append_assoc]
    conv_lhs => rw [riff_chunk_loop]
    rw [hassoc]
    rw [if_neg (show ¬ file_size + 8 ≤ pos by omega)]
    rw [List.take_left' hid]
    rw [if_neg hidne]
    rw [List.drop_left' hid]
    rw [List.take_left' (le32enc_length p.length)]
    simp only [unpackLE32_le32enc p.length hp]
    rw [List.drop_left' (le32enc_length p.length)]
    rw [List.take_left, List.drop_left]
    rw [if_pos hodd]
    simp only [List.drop_one, List.tail_cons]
    have hpad : (if p.length % 2 = 1 then ([0] : List Nat) else []) = [0] :=
      if_pos hodd
    have hArith : (id ++ (le32enc p.length ++ (p ++ (0 :: rem)))).length -
        rem.length = (encodeChunk id p).length := by
      simp only [encodeChunk, hpad, List.length_append, le32enc_length,
        List.length_cons, List.length_nil]
      omega
    rw [hArith]
  · have hassoc : encodeChunk id p ++ rem =
        id ++ (le32enc p.length ++ (p ++ rem)) := by
      simp [encodeChunk, hodd, List.append_assoc]
    conv_lhs => rw [riff_chunk_loop]
    rw [hassoc]
    rw [if_neg (show ¬ file_size + 8 ≤ pos by omega)]
    rw [List.take_left' hid]
    rw [if_neg hidne]
    rw [List.drop_left' hid]
    rw [List.take_left' (le32enc_length p.length)]
    simp only [unpackLE32_le32enc p.length hp]
    rw [List.drop_left' (le32enc_length p.length)]
    rw [List.take_left, List.drop_left]
    rw [if_neg hodd]
    have hpad : (if p.length % 2 = 1 then ([0] : List Nat) else []) = [] :=
      if_neg hodd
    have hArith : (id ++ (le32enc p.length ++ (p ++ rem))).length -
        rem.length = (encodeChunk id p).length := by
      simp only [encodeChunk, hpad, List.length_append, le32enc_length,
        List.length_nil]
      omega
    rw [hArith]

/-- A successful `unpackLE32` means the buffer had exactly 4 bytes. -/
theorem unpackLE32_ok_length {bs : List Nat} {v : Nat}
    (h : unpackLE32 bs = .ok v) : bs.length = 4 := by
  unfold unpackLE32 at h
  split at h
  · rfl
  · exact Except.noConfusion h

/-! Claim theorems. -/

/-- Claim C1 (code bug): the spec says every truncated tail of a
symbols/references/relations/sources chunk makes decoding stop cleanly
before the first incomplete record.  The code only does so for truncation
inside a varint (third conjunct: a sources chunk cut mid-varint yields a
clean empty result).  For fixed-width fields the per-record
`except (EOFError, struct.error)` does not help: a 10-byte relations chunk
returns a `Relation` whose object id has only 1 byte — a partially read
record in the result (first conjunct) — and a symbols chunk whose bytes end
just before a 1-byte field raises an uncaught `IndexError` (second
conjunct). -/
theorem c1_truncation_divergence :
    parse_relations_data (List.replicate 10 0) =
      .ok [⟨List.replicate 8 0, 0, [0]⟩] ∧
    parse_symbols_data Strategy.v18plus ⟨[]⟩ (List.replicate 3 0) =
      .error PyErr.indexError ∧
    parse_sources_data ⟨[]⟩ [5] = .ok [] := by
  refine ⟨?_, ?_, ?_⟩ <;> rfl

/-- Counterexample to claim C2 as stated: it asserts `get(0) = ""` for every
table built from NUL-delimited strings, but `get(0)` returns the table's
first string unchanged — here the table built from `"a\0b\0"` yields
`get(0) = "a" ≠ ""`. -/
theorem c2_counterexample :
    string_table_init (fun _ => .error "unused") [0, 0, 0, 0, 97, 0, 98, 0] =
      .ok ⟨["a", "b"]⟩ ∧
    StringTable.get ⟨["a", "b"]⟩ 0 = "a" ∧ ("a" : String) ≠ "" := by
  refine ⟨rfl, rfl, by decide⟩

/-- Claim C2 (amended): for a table built from N NUL-delimited strings,
`get(i)` returns the i-th (0-based) string for every `i < N` — so `get(0)`
is the first pooled string, which is `""` exactly when that string is empty,
as in well-formed pools where index 0 is reserved — and `get(i) = ""` for
every out-of-range `i ≥ N`. -/
theorem c2_string_table_round_trip (segs : List (List Nat))
    (decompress : List Nat → Except String (List Nat))
    (h : ∀ s ∈ segs, (0 : Nat) ∉ s) :
    string_table_init decompress ([0, 0, 0, 0] ++ buildBlob segs) =
      .ok ⟨segs.map decode_utf8_replace⟩ ∧
    (∀ i : Nat, ∀ hi : i < segs.length,
      StringTable.get ⟨segs.map decode_utf8_replace⟩ i =
        decode_utf8_replace (segs.get ⟨i, hi⟩)) ∧
    (∀ i : Nat, segs.length ≤ i →
      StringTable.get ⟨segs.map decode_utf8_replace⟩ i = "") := by
  refine ⟨?_, ?_, ?_⟩
  · unfold string_table_init
    rw [show (([0, 0, 0, 0] : List Nat) ++ buildBlob segs).take 4 =
      [0, 0, 0, 0] from rfl]
    simp only [show unpackLE32 [0, 0, 0, 0] = Except.ok 0 from rfl, if_true]
    rw [show (([0, 0, 0, 0] : List Nat) ++ buildBlob segs).drop 4 =
      buildBlob segs from rfl]
    rw [parse_strings_build segs h]
  · intro i hi
    unfold StringTable.get
    rw [dif_pos (by simpa using hi)]
    simp
  · intro i hge
    unfold StringTable.get
    rw [dif_neg (by simpa using Nat.not_lt.mpr hge)]

/-- Witness for C2 (amended) at the table built from `"a"` and `"b"`. -/
theorem c2_string_table_round_trip_witness :
    string_table_init (fun _ => .error "unused")
        ([0, 0, 0, 0] ++ buildBlob [[97], [98]]) =
      .ok ⟨[decode_utf8_replace [97], decode_utf8_replace [98]]⟩ ∧
    StringTable.get ⟨[decode_utf8_replace [97], decode_utf8_replace [98]]⟩ 1 =
      decode_utf8_replace [98] ∧
    StringTable.get ⟨[decode_utf8_replace [97], decode_utf8_replace [98]]⟩ 5 =
      "" := by
  have h := c2_string_table_round_trip [[97], [98]]
    (fun _ => .error "unused") (by decide)
  exact ⟨h.1, h.2.1 1 (by decide), h.2.2 5 (by decide)⟩

/-- Claim C10: a blob not ending in NUL keeps the bytes after the last NUL
as one final string (first conjunct), and the trailing NUL of a
NUL-terminated blob contributes no extra empty final string (second
conjunct). -/
theorem c10_trailing_bytes :
    (∀ pre tl : List Nat, (0 : Nat) ∉ tl → tl ≠ [] →
      parse_strings (pre ++ 0 :: tl) =
        parse_strings (pre ++ [0]) ++ [decode_utf8_replace tl]) ∧
    (∀ (bs : List Nat) (b : Nat), b ≠ 0 →
      parse_strings (bs ++ [b, 0]) = parse_strings (bs ++ [b])) := by
  constructor
  · intro pre tl h0 hne
    exact parse_strings_go_last_flush pre [] h0 hne
  · intro bs b hb
    exact parse_strings_go_term bs b [] hb

/-- Witness for C10 at the blobs `"a\0b"` and `"ab\0"`. -/
theorem c10_trailing_bytes_witness :
    parse_strings [97, 0, 98] =
      parse_strings [97, 0] ++ [decode_utf8_replace [98]] ∧
    parse_strings [97, 98, 0] = parse_strings [97, 98] := by
  constructor
  · exact c10_trailing_bytes.1 [97] [98] (by decide) (by decide)
  · exact c10_trailing_bytes.2 [97] 98 (by decide)

/-- Counterexample to claim C3 as stated: the location inside a Reference
record with file-index varint 0 is NOT reported absent — the version-13+
reference decoder returns a present location whose file string is resolved
through the table at index 0 (here `"zero"`, which is not empty) and whose
four coordinates carry the read values. -/
theorem c3_counterexample :
    parse_ref_v13to17 ⟨["zero"]⟩ [1, 0, 1, 2, 3, 4, 9, 9, 9, 9, 9, 9, 9, 9] =
      .ok (⟨1, ⟨"zero", 1, 2, 3, 4⟩, some [9, 9, 9, 9, 9, 9, 9, 9]⟩, []) ∧
    ("zero" : String) ≠ "" := by
  exact ⟨rfl, by decide⟩

/-- Claim C3 (amended): a Location whose file-index varint is 0 always
consumes exactly 4 further varints (the remainder is the state after the
fourth one); the symbol definition/canonical-declaration decoder then
reports the location as absent, while the reference-location decoder
returns a present location with the file string resolved at index 0. -/
theorem c3_location_sentinel (tbl : StringTable)
    (s r0 s1 s2 s3 s4 : List Nat) (v1 v2 v3 v4 : Nat)
    (h0 : read_varint s = .ok (0, r0))
    (h1 : read_varint r0 = .ok (v1, s1))
    (h2 : read_varint s1 = .ok (v2, s2))
    (h3 : read_varint s2 = .ok (v3, s3))
    (h4 : read_varint s3 = .ok (v4, s4)) :
    idx_read_location tbl s = .ok (none, s4) ∧
    format_read_location tbl s = .ok (⟨tbl.get 0, v1, v2, v3, v4⟩, s4) := by
  constructor
  · unfold idx_read_location
    simp only [h0, if_true]
    simp only [h1, h2, h3, h4]
  · unfold format_read_location
    simp only [h0, h1, h2, h3, h4]

/-- Witness for C3 (amended) at concrete one-byte varints. -/
theorem c3_location_sentinel_witness :
    idx_read_location ⟨["zero"]⟩ [0, 1, 2, 3, 4] = .ok (none, []) ∧
    format_read_location ⟨["zero"]⟩ [0, 1, 2, 3, 4] =
      .ok (⟨StringTable.get ⟨["zero"]⟩ 0, 1, 2, 3, 4⟩, []) := by
  exact c3_location_sentinel ⟨["zero"]⟩ [0, 1, 2, 3, 4] [1, 2, 3, 4] [2, 3, 4]
    [3, 4] [4] [] 1 2 3 4 rfl rfl rfl rfl rfl

/-- Claim C4: under the version-18+ strategy the second include-header
varint `packed` decodes to reference count `packed >> 2` and directive
`packed & 0x3`; in particular `(5 << 2) | 1 = 21` gives count 5 with
directive Include and `(0 << 2) | 2 = 2` gives count 0 with directive
Import. -/
theorem c4_packed_include_header :
    (∀ (tbl : StringTable) (s s1 s2 : List Nat) (header_idx packed : Nat),
      read_varint s = .ok (header_idx, s1) →
      read_varint s1 = .ok (packed, s2) →
      parse_include_header_v18plus tbl s =
        .ok (⟨tbl.get header_idx, packed >>> 2, packed &&& 0x3⟩, s2)) ∧
    parse_include_header_v18plus ⟨["", "h"]⟩ [1, 21] =
      .ok (⟨"h", 5, includeDirectiveInclude⟩, []) ∧
    parse_include_header_v18plus ⟨["", "h"]⟩ [1, 2] =
      .ok (⟨"h", 0, includeDirectiveImport⟩, []) ∧
    21 = (5 <<< 2) ||| 1 ∧ 2 = (0 <<< 2) ||| 2 := by
  refine ⟨?_, rfl, rfl, by decide, by decide⟩
  intro tbl s s1 s2 header_idx packed h1 h2
  unfold parse_include_header_v18plus
  simp only [h1, h2]

/-- Witness for C4 at the packed byte 21. -/
theorem c4_packed_include_header_witness :
    parse_include_header_v18plus ⟨["", "h"]⟩ [1, 21] =
      .ok (⟨StringTable.get ⟨["", "h"]⟩ 1, 21 >>> 2, 21 &&& 0x3⟩, []) := by
  exact c4_packed_include_header.1 ⟨["", "h"]⟩ [1, 21] [21] [] 1 21 rfl rfl

/-- Claim C5: a string-pool chunk declaring a nonzero uncompressed size `S`
whose decompressed payload length differs from `S` fails with the
size-mismatch `ValueError` (first conjunct) and can never succeed
(second conjunct: success forces the decompressed length to equal `S`). -/
theorem c5_checksum_enforcement :
    (∀ (decompress : List Nat → Except String (List Nat)) (data : List Nat)
      (S : Nat) (d : List Nat),
      unpackLE32 (data.take 4) = .ok S → S ≠ 0 →
      decompress (data.drop 4) = .ok d → d.length ≠ S →
      string_table_init decompress data =
        .error (.valueError ("Decompressed size mismatch: expected " ++
          toString S ++ ", got " ++ toString d.length))) ∧
    (∀ (decompress : List Nat → Except String (List Nat)) (data : List Nat)
      (S : Nat) (d : List Nat) (st : StringTable),
      unpackLE32 (data.take 4) = .ok S → S ≠ 0 →
      decompress (data.drop 4) = .ok d →
      string_table_init decompress data = .ok st → d.length = S) := by
  constructor
  · intro dec data S d hS hS0 hd hlen
    unfold string_table_init
    simp only [hS]
    rw [if_neg hS0]
    simp only [hd]
    rw [if_pos hlen]
  · intro dec data S d st hS hS0 hd hok
    unfold string_table_init at hok
    simp only [hS] at hok
    rw [if_neg hS0] at hok
    simp only [hd] at hok
    by_contra hne
    rw [if_pos hne] at hok
    exact Except.noConfusion hok

/-- Witness for C5: declared size 5, decompressed length 3. -/
theorem c5_checksum_enforcement_witness :
    string_table_init (fun _ => .ok [1, 2, 3]) [5, 0, 0, 0] =
      .error (.valueError ("Decompressed size mismatch: expected " ++
        toString 5 ++ ", got " ++ toString 3)) := by
  exact c5_checksum_enforcement.1 (fun _ => .ok [1, 2, 3]) [5, 0, 0, 0] 5
    [1, 2, 3] rfl (by decide) rfl (by decide)

/-- Claim C7: on the same kind byte and location bytes, the version-12
reference decoder consumes exactly the kind byte plus the location bytes,
while the version-13+ decoder consumes exactly 8 more bytes (the container
id); both agree on kind and location, the container is `none` for v12 and
equals the 8 appended bytes for v13+. -/
theorem c7_version_layout (tbl : StringTable) (kind_byte : Nat)
    (loc_bytes container rest : List Nat) (loc : SymbolLocation)
    (hloc : format_read_location tbl loc_bytes = .ok (loc, []))
    (hc : container.length = 8) :
    parse_ref_v12 tbl (kind_byte :: loc_bytes) =
      .ok (⟨kind_byte, loc, none⟩, []) ∧
    parse_ref_v13to17 tbl (kind_byte :: (loc_bytes ++ (container ++ rest))) =
      .ok (⟨kind_byte, loc, some container⟩, rest) ∧
    (kind_byte :: (loc_bytes ++ container)).length =
      (kind_byte :: loc_bytes).length + 8 := by
  refine ⟨?_, ?_, ?_⟩
  · unfold parse_ref_v12
    simp only [pyReadByte, hloc]
  · unfold parse_ref_v13to17
    have hext := format_read_location_append tbl (container ++ rest) hloc
    simp only [List.nil_append] at hext
    simp only [pyReadByte, hext, pyRead]
    rw [List.take_left' hc, List.drop_left' hc]
  · simp [hc]

/-- Witness for C7 at a concrete 5-varint location and 8-byte container. -/
theorem c7_version_layout_witness :
    parse_ref_v12 ⟨[]⟩ (7 :: [1, 2, 3, 4, 5]) =
      .ok (⟨7, ⟨"", 2, 3, 4, 5⟩, none⟩, []) ∧
    parse_ref_v13to17 ⟨[]⟩
        (7 :: ([1, 2, 3, 4, 5] ++ ([9, 9, 9, 9, 9, 9, 9, 9] ++ [5]))) =
      .ok (⟨7, ⟨"", 2, 3, 4, 5⟩, some [9, 9, 9, 9, 9, 9, 9, 9]⟩, [5]) ∧
    (7 :: ([1, 2, 3, 4, 5] ++ [9, 9, 9, 9, 9, 9, 9, 9])).length =
      (7 :: [1, 2, 3, 4, 5]).length + 8 := by
  exact c7_version_layout ⟨[]⟩ 7 [1, 2, 3, 4, 5] [9, 9, 9, 9, 9, 9, 9, 9] [5]
    ⟨"", 2, 3, 4, 5⟩ rfl rfl

/-- Length of an encoded chunk: 8 header bytes, the payload, and one pad
byte when the payload length is odd. -/
theorem encodeChunk_length (id p : List Nat) :
    (encodeChunk id p).length = id.length + 4 + p.length + p.length % 2 := by
  unfold encodeChunk
  by_cases h : p.length % 2 = 1
  · rw [if_pos h]
    simp only [List.length_append, le32enc_length, List.length_cons,
      List.length_nil]
    omega
  · rw [if_neg h]
    simp only [List.length_append, le32enc_length, List.length_nil]
    omega

/-- Claim C6: a version outside 12–20 read from the metadata chunk makes
initialization fail with an unsupported-version error carrying the raw
number (first conjunct); within 12–20 exactly one of the three strategies
is selected, characterized by the three range equivalences, and a
successful initialization carries exactly the selected strategy (last
conjunct). -/
theorem c6_version_dispatch
    (decompress : List Nat → Except String (List Nat)) (chunks : Chunks)
    (meta : List Nat) (v : Nat)
    (hm : chunks "meta" = some meta)
    (hv : unpackLE32 (meta.take 4) = .ok v) :
    ((¬ (12 ≤ v ∧ v ≤ 20)) → idx_initialize decompress chunks =
      .error (.valueError ("Unsupported format version: " ++ toString v))) ∧
    (select_strategy v = .ok .v12 ↔ v = 12) ∧
    (select_strategy v = .ok .v13to17 ↔ (13 ≤ v ∧ v ≤ 17)) ∧
    (select_strategy v = .ok .v18plus ↔ (18 ≤ v ∧ v ≤ 20)) ∧
    (∀ out : Nat × Strategy × StringTable,
      idx_initialize decompress chunks = .ok out →
      select_strategy v = .ok out.2.1) := by
  have hlen4 := unpackLE32_ok_length hv
  have hlen : 4 ≤ meta.length := by
    rw [List.length_take] at hlen4
    omega
  have hne : meta ≠ [] := by
    intro h
    rw [h] at hlen
    simp at hlen
  have hcond : ¬ (pyFalsy (chunks "meta") = true) := by
    rw [hm]
    cases meta with
    | nil => exact absurd rfl hne
    | cons a l => simp [pyFalsy]
  have hdata : chunkData chunks "meta" = meta := by
    unfold chunkData
    rw [hm]
  refine ⟨?_, ?_, ?_, ?_, ?_⟩
  · intro hout
    unfold idx_initialize
    rw [if_neg hcond, hdata]
    simp only [hv]
    have hsel : select_strategy v = .error (.valueError
        ("Unsupported format version: " ++ toString v)) := by
      unfold select_strategy
      rw [if_neg (by omega), if_neg (by omega), if_neg (by omega)]
    simp only [hsel]
  · constructor
    · intro hsel
      unfold select_strategy at hsel
      split_ifs at hsel with h1 h2 h3 <;>
        first
        | exact h1
        | simp at hsel
    · intro h1
      unfold select_strategy
      rw [if_pos h1]
  · constructor
    · intro hsel
      unfold select_strategy at hsel
      split_ifs at hsel with h1 h2 h3 <;>
        first
        | exact h2
        | simp at hsel
    · intro h2
      unfold select_strategy
      rw [if_neg (by omega), if_pos h2]
  · constructor
    · intro hsel
      unfold select_strategy at hsel
      split_ifs at hsel with h1 h2 h3 <;>
        first
        | exact h3
        | simp at hsel
    · intro h3
      unfold select_strategy
      rw [if_neg (by omega), if_neg (by omega), if_pos h3]
  · intro out hok
    unfold idx_initialize at hok
    rw [if_neg hcond, hdata] at hok
    simp only [hv] at hok
    cases hsel : select_strategy v with
    | error e =>
      simp only [hsel] at hok
      exact Except.noConfusion hok
    | ok stg =>
      simp only [hsel] at hok
      split at hok
      · exact Except.noConfusion hok
      · split at hok
        · exact Except.noConfusion hok
        · simp only [Except.ok.injEq] at hok
          subst hok
          rfl

/-- Witness for C6: version 21 is rejected with the raw number in the
message. -/
theorem c6_version_dispatch_witness :
    idx_initialize (fun _ => .error "unused")
        (fun k => if k = "meta" then some [21, 0, 0, 0] else none) =
      .error (.valueError ("Unsupported format version: " ++ toString 21)) := by
  exact (c6_version_dispatch (fun _ => .error "unused")
    (fun k => if k = "meta" then some [21, 0, 0, 0] else none)
    [21, 0, 0, 0] 21 (by decide) rfl).1 (by omega)

/-- Claim C8: a missing (or empty, which Python truthiness treats the same)
`meta` chunk or `stri` chunk is a fatal error naming the missing chunk
(first two conjuncts); absence of any optional chunk makes the
corresponding decoder return an empty collection, or no command for
`cmdl`, never an error (remaining conjuncts). -/
theorem c8_mandatory_optional_chunks :
    (∀ (decompress : List Nat → Except String (List Nat)) (chunks : Chunks),
      pyFalsy (chunks "meta") = true →
      idx_initialize decompress chunks =
        .error (.valueError "Missing required meta chunk")) ∧
    (∀ (decompress : List Nat → Except String (List Nat)) (chunks : Chunks)
      (meta : List Nat) (v : Nat),
      chunks "meta" = some meta → unpackLE32 (meta.take 4) = .ok v →
      12 ≤ v → v ≤ 20 → pyFalsy (chunks "stri") = true →
      idx_initialize decompress chunks =
        .error (.valueError "Missing required stri chunk")) ∧
    (∀ (chunks : Chunks) (stg : Strategy) (tbl : StringTable),
      pyFalsy (chunks "symb") = true → parse_symbols chunks stg tbl = .ok []) ∧
    (∀ (chunks : Chunks) (stg : Strategy) (tbl : StringTable),
      pyFalsy (chunks "refs") = true → parse_refs chunks stg tbl = .ok []) ∧
    (∀ chunks : Chunks,
      pyFalsy (chunks "rela") = true → parse_relations chunks = .ok []) ∧
    (∀ (chunks : Chunks) (tbl : StringTable),
      pyFalsy (chunks "srcs") = true → parse_sources chunks tbl = .ok []) ∧
    (∀ (chunks : Chunks) (tbl : StringTable),
      pyFalsy (chunks "cmdl") = true → parse_command chunks tbl = .ok none) := by
  refine ⟨?_, ?_, ?_, ?_, ?_, ?_, ?_⟩
  · intro dec chunks h
    unfold idx_initialize
    rw [if_pos h]
  · intro dec chunks meta v hm hv h12 h20 hstri
    have hlen4 := unpackLE32_ok_length hv
    have hlen : 4 ≤ meta.length := by
      rw [List.length_take] at hlen4
      omega
    have hne : meta ≠ [] := by
      intro h
      rw [h] at hlen
      simp at hlen
    have hcond : ¬ (pyFalsy (chunks "meta") = true) := by
      rw [hm]
      cases meta with
      | nil => exact absurd rfl hne
      | cons a l => simp [pyFalsy]
    have hdata : chunkData chunks "meta" = meta := by
      unfold chunkData
      rw [hm]
    unfold idx_initialize
    rw [if_neg hcond, hdata]
    simp only [hv]
    obtain ⟨stg, hstg⟩ : ∃ stg, select_strategy v = .ok stg := by
      unfold select_strategy
      by_cases h1 : v = 12
      · exact ⟨_, by rw [if_pos h1]⟩
      · by_cases h2 : 13 ≤ v ∧ v ≤ 17
        · exact ⟨_, by rw [if_neg h1, if_pos h2]⟩
        · exact ⟨_, by rw [if_neg h1, if_neg h2, if_pos (by omega)]⟩
    simp only [hstg]
    rw [if_pos hstri]
  · intro chunks stg tbl h
    unfold parse_symbols
    rw [if_pos h]
  · intro chunks stg tbl h
    unfold parse_refs
    rw [if_pos h]
  · intro chunks h
    unfold parse_relations
    rw [if_pos h]
  · intro chunks tbl h
    unfold parse_sources
    rw [if_pos h]
  · intro chunks tbl h
    unfold parse_command
    rw [if_pos h]

/-- Witness for C8: a container with no chunks at all (both fatal errors,
at their respective configurations) and empty optional decodes. -/
theorem c8_mandatory_optional_chunks_witness :
    idx_initialize (fun _ => .error "unused") (fun _ => none) =
      .error (.valueError "Missing required meta chunk") ∧
    idx_initialize (fun _ => .error "unused")
        (fun k => if k = "meta" then some [12, 0, 0, 0] else none) =
      .error (.valueError "Missing required stri chunk") ∧
    parse_symbols (fun _ => none) Strategy.v12 ⟨[]⟩ = .ok [] ∧
    parse_refs (fun _ => none) Strategy.v12 ⟨[]⟩ = .ok [] ∧
    parse_relations (fun _ => none) = .ok [] ∧
    parse_sources (fun _ => none) ⟨[]⟩ = .ok [] ∧
    parse_command (fun _ => none) ⟨[]⟩ = .ok none := by
  refine ⟨c8_mandatory_optional_chunks.1 _ _ rfl,
    c8_mandatory_optional_chunks.2.1 _
      (fun k => if k = "meta" then some [12, 0, 0, 0] else none)
      [12, 0, 0, 0] 12 (by decide) rfl (by omega) (by omega) (by decide),
    c8_mandatory_optional_chunks.2.2.1 _ _ _ rfl,
    c8_mandatory_optional_chunks.2.2.2.1 _ _ _ rfl,
    c8_mandatory_optional_chunks.2.2.2.2.1 _ rfl,
    c8_mandatory_optional_chunks.2.2.2.2.2.1 _ _ rfl,
    c8_mandatory_optional_chunks.2.2.2.2.2.2 _ _ rfl⟩

/-- Claim C9: in a container holding two chunks with the same 4-byte id,
the parsed chunk map retains only the payload of the last one, with no
error raised: looking the id up after a successful parse yields the second
payload. -/
theorem c9_duplicate_chunk_last_wins (id p1 p2 : List Nat)
    (hid : id.length = 4) (hp1 : p1.length < 4294967296)
    (hp2 : p2.length < 4294967296)
    (hfs : 4 + (encodeChunk id p1).length + (encodeChunk id p2).length <
      4294967296) :
    riff_get_chunk (riffFile2 id p1 p2) (decode_ascii_ignore id) =
      .ok (some p2) := by
  have ha : 0 < (encodeChunk id p1).length := by
    rw [encodeChunk_length]
    omega
  have hb : 0 < (encodeChunk id p2).length := by
    rw [encodeChunk_length]
    omega
  have hsum : (encodeChunk id p1 ++ encodeChunk id p2).length =
      (encodeChunk id p1).length + (encodeChunk id p2).length :=
    List.length_append _ _
  have hform : riffFile2 id p1 p2 = [82, 73, 70, 70] ++
      (le32enc (4 + (encodeChunk id p1).length + (encodeChunk id p2).length) ++
        ([67, 100, 73, 120] ++
          (encodeChunk id p1 ++ encodeChunk id p2))) := by
    simp [riffFile2, List.append_assoc]
  have h4 : (riffFile2 id p1 p2).take 4 = [82, 73, 70, 70] := by
    rw [hform]
    exact List.take_left' rfl
  have hd4 : (riffFile2 id p1 p2).drop 4 =
      le32enc (4 + (encodeChunk id p1).length + (encodeChunk id p2).length) ++
        ([67, 100, 73, 120] ++ (encodeChunk id p1 ++ encodeChunk id p2)) := by
    rw [hform]
    exact List.drop_left' rfl
  have hsz : ((riffFile2 id p1 p2).drop 4).take 4 =
      le32enc (4 + (encodeChunk id p1).length + (encodeChunk id p2).length) := by
    rw [hd4]
    exact List.take_left' (le32enc_length _)
  have hd8 : (riffFile2 id p1 p2).drop 8 =
      [67, 100, 73, 120] ++ (encodeChunk id p1 ++ encodeChunk id p2) := by
    have h48 : (riffFile2 id p1 p2).drop 8 =
        ((riffFile2 id p1 p2).drop 4).drop 4 := by
      rw [List.drop_drop]
    rw [h48, hd4]
    exact List.drop_left' (le32enc_length _)
  have ht : ((riffFile2 id p1 p2).drop 8).take 4 = [67, 100, 73, 120] := by
    rw [hd8]
    exact List.take_left' rfl
  have hd12 : (riffFile2 id p1 p2).drop 12 =
      encodeChunk id p1 ++ encodeChunk id p2 := by
    have h812 : (riffFile2 id p1 p2).drop 12 =
        ((riffFile2 id p1 p2).drop 8).drop 4 := by
      rw [List.drop_drop]
    rw [h812, hd8]
    exact List.drop_left' rfl
  have hparse : riff_parse (riffFile2 id p1 p2) =
      .ok (updateChunks
        (updateChunks emptyChunks (decode_ascii_ignore id) p1)
        (decode_ascii_ignore id) p2) := by
    unfold riff_parse
    rw [h4, if_neg (by simp)]
    rw [hsz]
    simp only [unpackLE32_le32enc _ hfs]
    rw [ht, if_neg (by simp)]
    rw [hd12]
    have hpos1 : (12 : Nat) <
        4 + (encodeChunk id p1).length + (encodeChunk id p2).length + 8 := by
      omega
    rw [riff_chunk_loop_step _ _ _ _ _ _ _ hid hp1 hpos1]
    obtain ⟨n, hn⟩ : ∃ n, (encodeChunk id p1 ++ encodeChunk id p2).length =
        n + 1 := ⟨(encodeChunk id p1 ++ encodeChunk id p2).length - 1, by omega⟩
    rw [hn]
    nth_rewrite 2 [← List.append_nil (encodeChunk id p2)]
    have hpos2 : 12 + (encodeChunk id p1).length <
        4 + (encodeChunk id p1).length + (encodeChunk id p2).length + 8 := by
      omega
    rw [riff_chunk_loop_step _ _ _ _ _ _ _ hid hp2 hpos2]
    have hstop : 4 + (encodeChunk id p1).length + (encodeChunk id p2).length +
        8 ≤ 12 + (encodeChunk id p1).length + (encodeChunk id p2).length := by
      omega
    exact riff_chunk_loop_stop _ _ _ _ _ hstop
  unfold riff_get_chunk
  simp only [hparse]
  unfold updateChunks
  rw [if_pos rfl]

/-- Witness for C9 at id `"aaaa"` with payloads `[1, 2]` and `[3, 4, 5]`. -/
theorem c9_duplicate_chunk_last_wins_witness :
    riff_get_chunk (riffFile2 [97, 97, 97, 97] [1, 2] [3, 4, 5])
      (decode_ascii_ignore [97, 97, 97, 97]) = .ok (some [3, 4, 5]) := by
  exact c9_duplicate_chunk_last_wins [97, 97, 97, 97] [1, 2] [3, 4, 5]
    rfl (by decide) (by decide) (by decide)

end Clangd
